import Mathlib

/-!
Verification of the resilient exercise harvester (`src/main.py`).

The script enumerates a numeric identifier range, fetches one detail page per
identifier through `coletar_exercicio` (a retry loop with exponential backoff),
extracts a record from each successfully loaded page, and reassembles the
results and the status log in identifier order with Python's stable `sorted`.

The embedding below follows the source line by line.  The network is modelled
by a function `env : Nat → Nat → FetchResult` giving, for an identifier and a
0-indexed attempt number, the outcome of that `requests.get` call; the thread
pool's nondeterministic completion order is modelled by an arbitrary
permutation `order` of the submitted identifiers; the nondeterministic
interleaving of the workers' `log_status` calls is modelled by an arbitrary
list `inter` constrained only by what the code guarantees (every entry carries
the identifier of the task that emitted it).  Python's `sorted`, a stable sort
by a key, is modelled by insertion sort (`List.insertionSort`), which places an
inserted element before the first element it does not strictly follow and is
therefore stable.
-/

namespace AcademiaSalva

/-- An `img` element as the scraper sees it: only its optional `src` attribute
matters (line 67: `gif_tag["src"] if gif_tag and gif_tag.has_attr("src") else ""`). -/
structure ImgTag where
  src : Option String
deriving DecidableEq

/-- The `div class="descricao-gif-grande"` container, which may hold an `img`
child (lines 65-66). -/
structure GifDiv where
  img : Option ImgTag
deriving DecidableEq

/-- Abstraction of the parsed page (`BeautifulSoup(response.text)`): for each of
the four fixed element ids looked up with `soup.find` (lines 56, 62-64), the raw
text content when the element is present, plus the optional gif container.
`get_text(strip=True)` is modelled by `strip` on the raw text. -/
structure Html where
  lblNome1 : Option String
  lblDescricao : Option String
  lblGrupoM : Option String
  lblInstrucao : Option String
  gifDiv : Option GifDiv
deriving DecidableEq

/-- Result of one `requests.get` plus `raise_for_status()` (lines 51-52): a
parsed page, an `HTTPError` carrying the response status code (4xx/5xx), or a
`RequestException` (timeout or connection error). -/
inductive FetchResult where
  | ok (soup : Html)
  | httpError (status : Nat)
  | reqError
deriving DecidableEq

/-- The dictionary built on lines 72-78 of the source. -/
structure Record where
  codigo : Nat
  nome : String
  descricao : String
  grupoMuscular : String
  instrucao : String
  gif_url : String
deriving DecidableEq

/-- Terminal classification of one identifier's harvest (spec section 3,
`Outcome`), attached below to the code path that realises it. -/
inductive Outcome where
  | success (r : Record)
  | empty
  | notFound (status : Nat)
  | networkError
  | malformed (detail : String)
deriving DecidableEq

/-- Payload of one `log_status` call; one constructor per f-string in the
source, carrying exactly the data interpolated there:
`aviso` line 59, `sucesso` line 70, `info` line 82, `rede` line 87
(`tentativa` is the printed `attempt + 1`), `falhaFinal` line 91,
`iniciando` line 97, `concluida` line 114. -/
inductive Msg where
  | aviso (codigo : Nat)
  | sucesso (codigo : Nat) (nome : String)
  | info (codigo : Nat) (status : Nat)
  | rede (codigo : Nat) (tentativa : Nat) (maxRetries : Nat) (waitTime : Nat)
  | falhaFinal (codigo : Nat) (maxRetries : Nat)
  | iniciando (total : Nat) (inicial : Nat) (final : Nat)
  | concluida
deriving DecidableEq

/-- Python's whitespace stripping as performed by `get_text(strip=True)`
(lines 58, 69, 74-76): drop leading and trailing whitespace characters. -/
def strip (s : String) : String :=
  String.mk (((s.data.dropWhile Char.isWhitespace).reverse.dropWhile Char.isWhitespace).reverse)

/-- The `gif_url` computation (lines 65-67): empty string whenever the div, the
img, or the `src` attribute is absent. -/
def gif_url_of (soup : Html) : String :=
  match soup.gifDiv with
  | none => ""
  | some d =>
    match d.img with
    | none => ""
    | some tag =>
      match tag.src with
      | some s => s
      | none => ""

/-- The guard on line 58: `lblNome1` is present and its stripped text is
non-empty (`not nome_tag or not nome_tag.get_text(strip=True)` negated). -/
def nome_presente (soup : Html) : Bool :=
  match soup.lblNome1 with
  | none => false
  | some raw => if strip raw = "" then false else true

/-- Field extraction from a successfully loaded page (lines 55-78): `none`
models the empty-page return on line 60, `some` the dictionary on lines 72-78. -/
def extract (codigo : Nat) (soup : Html) : Option Record :=
  match soup.lblNome1 with
  | none => none
  | some raw =>
    if strip raw = "" then none
    else
      some {
        codigo := codigo
        nome := strip raw
        descricao := match soup.lblDescricao with | some t => strip t | none => ""
        grupoMuscular := match soup.lblGrupoM with | some t => strip t | none => ""
        instrucao := match soup.lblInstrucao with | some t => strip t | none => ""
        gif_url := gif_url_of soup }

/-- Observable behaviour of one `coletar_exercicio(codigo)` call: the returned
value (`None` or the record), its terminal classification, the `log_status`
calls it makes in order, the `time.sleep` durations it performs in order, and
how many `requests.get` calls it issues. -/
structure TaskResult where
  result : Option Record
  outcome : Outcome
  logs : List (Nat × Msg)
  sleeps : List Nat
  attempts : Nat
deriving DecidableEq

/-- Processing of one successfully loaded page (lines 54-78): either the
empty-page warning and `return None` (lines 58-60) or the success log and the
returned dictionary (lines 69-78).  Always exactly one `requests.get` call. -/
def pageTask (codigo : Nat) (soup : Html) : TaskResult :=
  match extract codigo soup with
  | none =>
    { result := none
      outcome := .empty
      logs := [(codigo, .aviso codigo)]
      sleeps := []
      attempts := 1 }
  | some r =>
    { result := some r
      outcome := .success r
      logs := [(codigo, .sucesso codigo r.nome)]
      sleeps := []
      attempts := 1 }

/-- The retry loop of `coletar_exercicio` (lines 49-92).  `attempt` is the loop
variable and `fuel` the number of iterations left (`maxRetries - attempt`);
running out of fuel is the fall-through after the loop (lines 90-92), reached
only when every attempt raised a `RequestException`.  The three `return`
branches inside the loop stop the recursion; the `RequestException` branch
logs, sleeps `2 ** attempt`, and continues with the next attempt. -/
def coletarFuel (env : Nat → Nat → FetchResult) (codigo maxRetries : Nat) :
    Nat → Nat → TaskResult
  | 0, _ =>
    { result := none
      outcome := .networkError
      logs := [(codigo, .falhaFinal codigo maxRetries)]
      sleeps := []
      attempts := 0 }
  | fuel + 1, attempt =>
    match env codigo attempt with
    | .ok soup => pageTask codigo soup
    | .httpError status =>
      { result := none
        outcome := .notFound status
        logs := [(codigo, .info codigo status)]
        sleeps := []
        attempts := 1 }
    | .reqError =>
      let waitTime := 2 ^ attempt
      let rest := coletarFuel env codigo maxRetries fuel (attempt + 1)
      { result := rest.result
        outcome := rest.outcome
        logs := (codigo, .rede codigo (attempt + 1) maxRetries waitTime) :: rest.logs
        sleeps := waitTime :: rest.sleeps
        attempts := rest.attempts + 1 }

/-- `coletar_exercicio(codigo)` (lines 43-92) under network behaviour `env`
with the configured `max_retries`. -/
def coletar_exercicio (env : Nat → Nat → FetchResult) (maxRetries codigo : Nat) : TaskResult :=
  coletarFuel env codigo maxRetries maxRetries 0

/-- `codigos_totais = range(codigo_inicial, codigo_final + 1)` (line 95). -/
def codigos_totais (codigoInicial codigoFinal : Nat) : List Nat :=
  List.range' codigoInicial (codigoFinal + 1 - codigoInicial)

/-- `total_a_coletar = len(codigos_totais)` (line 96). -/
def total_a_coletar (codigoInicial codigoFinal : Nat) : Nat :=
  (codigos_totais codigoInicial codigoFinal).length

/-- One `(codigo, terminal outcome)` pair per submitted task: line 103 submits
exactly one future per element of `codigos_totais`, and each future yields
exactly one terminal result. -/
def outcomes (env : Nat → Nat → FetchResult) (maxRetries codigoInicial codigoFinal : Nat) :
    List (Nat × Outcome) :=
  (codigos_totais codigoInicial codigoFinal).map
    (fun c => (c, (coletar_exercicio env maxRetries c).outcome))

/-- `resultados_finais` (lines 101-108): the non-`None` task results appended
as the futures complete; the completion order is an arbitrary permutation
`order` of the submitted identifiers. -/
def resultados_finais (env : Nat → Nat → FetchResult) (maxRetries : Nat)
    (order : List Nat) : List Record :=
  order.filterMap (fun c => (coletar_exercicio env maxRetries c).result)

/-- Python's `sorted(..., key=lambda x: x["codigo"])` (line 117): a stable sort
by the `codigo` key, modelled by insertion sort. -/
def sortRecords (l : List Record) : List Record :=
  l.insertionSort (fun a b => a.codigo ≤ b.codigo)

/-- `exercicios_coletados = sorted(resultados_finais, key=...)` (line 117). -/
def exercicios_coletados (env : Nat → Nat → FetchResult) (maxRetries : Nat)
    (order : List Nat) : List Record :=
  sortRecords (resultados_finais env maxRetries order)

/-- `total_sucesso = len(exercicios_coletados)` (line 121). -/
def total_sucesso (env : Nat → Nat → FetchResult) (maxRetries : Nat)
    (order : List Nat) : Nat :=
  (exercicios_coletados env maxRetries order).length

/-- `total_falha = total_a_coletar - total_sucesso` (line 122). -/
def total_falha (env : Nat → Nat → FetchResult) (maxRetries : Nat)
    (codigoInicial codigoFinal : Nat) (order : List Nat) : Nat :=
  total_a_coletar codigoInicial codigoFinal - total_sucesso env maxRetries order

/-- `status_messages` of a full run (lines 36-41, 97, 114): the start banner
logged under sentinel code 0 (line 97), then some interleaving `inter` of the
per-task `log_status` calls, then the finish banner logged under sentinel code
99999 (line 114), which runs only after the executor has joined every task. -/
def status_messages (codigoInicial codigoFinal : Nat) (inter : List (Nat × Msg)) :
    List (Nat × Msg) :=
  (0, Msg.iniciando (total_a_coletar codigoInicial codigoFinal) codigoInicial codigoFinal)
    :: inter ++ [(99999, Msg.concluida)]

/-- `sorted_logs = sorted(status_messages, key=lambda x: x[0])` (line 130). -/
def sorted_logs (msgs : List (Nat × Msg)) : List (Nat × Msg) :=
  msgs.insertionSort (fun a b => a.1 ≤ b.1)

/-- A network that always raises `RequestException`. -/
def envAllFail : Nat → Nat → FetchResult := fun _ _ => .reqError

/-- A network whose first attempt raises `RequestException` and whose later
attempts answer 404. -/
def envRetryThen404 : Nat → Nat → FetchResult :=
  fun _ attempt => if attempt = 0 then .reqError else .httpError 404

/-- A fully populated page. -/
def soupCheia : Html :=
  { lblNome1 := some " Supino Reto "
    lblDescricao := some " Peito "
    lblGrupoM := some "Peitoral"
    lblInstrucao := some "Deite no banco"
    gifDiv := some { img := some { src := some "supino.gif" } } }

/-- A page that loads but has a blank primary field. -/
def soupVazia : Html :=
  { lblNome1 := some "   "
    lblDescricao := none
    lblGrupoM := none
    lblInstrucao := none
    gifDiv := none }

/-- A page with a primary name but every secondary element absent. -/
def soupSoNome : Html :=
  { lblNome1 := some "Agachamento"
    lblDescricao := none
    lblGrupoM := none
    lblInstrucao := none
    gifDiv := none }

/-- A network that always answers the fully populated page. -/
def envCheia : Nat → Nat → FetchResult := fun _ _ => .ok soupCheia

/-- A network that always answers the blank page. -/
def envVazia : Nat → Nat → FetchResult := fun _ _ => .ok soupVazia


/-- A network that always answers 404. -/
def envHttp404 : Nat → Nat → FetchResult := fun _ _ => .httpError 404

/-- A network that times out forever on identifier 1 and answers 500 elsewhere;
it agrees with `envAllFail` on identifier 1. -/
def envMix : Nat → Nat → FetchResult :=
  fun codigo _ => if codigo = 1 then .reqError else .httpError 500

/-- The record extracted from `soupSoNome`. -/
def recSoNome : Record :=
  { codigo := 5, nome := "Agachamento", descricao := "", grupoMuscular := ""
    instrucao := "", gif_url := "" }

/-! ### Basic facts about field extraction -/

theorem extract_isSome (codigo : Nat) (soup : Html) :
    (extract codigo soup).isSome = nome_presente soup := by
  unfold extract nome_presente
  cases soup.lblNome1 with
  | none => rfl
  | some raw =>
    by_cases h : strip raw = ""
    · simp [h]
    · simp [h]

theorem extract_codigo (codigo : Nat) (soup : Html) (r : Record)
    (h : extract codigo soup = some r) : r.codigo = codigo := by
  unfold extract at h
  cases hn : soup.lblNome1 with
  | none => rw [hn] at h; cases h
  | some raw =>
    rw [hn] at h
    simp only at h
    by_cases ht : strip raw = ""
    · rw [if_pos ht] at h; cases h
    · rw [if_neg ht] at h
      cases h
      rfl

/-! ### Step equations for the retry loop -/

theorem pageTask_none {codigo : Nat} {soup : Html}
    (hex : extract codigo soup = none) :
    pageTask codigo soup =
      ⟨none, .empty, [(codigo, .aviso codigo)], [], 1⟩ := by
  unfold pageTask; rw [hex]

theorem pageTask_some {codigo : Nat} {soup : Html} {r : Record}
    (hex : extract codigo soup = some r) :
    pageTask codigo soup =
      ⟨some r, .success r, [(codigo, .sucesso codigo r.nome)], [], 1⟩ := by
  unfold pageTask; rw [hex]

theorem coletarFuel_zero (env : Nat → Nat → FetchResult) (codigo maxRetries attempt : Nat) :
    coletarFuel env codigo maxRetries 0 attempt =
      ⟨none, .networkError, [(codigo, .falhaFinal codigo maxRetries)], [], 0⟩ := rfl

theorem coletarFuel_ok {env : Nat → Nat → FetchResult}
    {codigo maxRetries fuel attempt : Nat} {soup : Html}
    (henv : env codigo attempt = .ok soup) :
    coletarFuel env codigo maxRetries (fuel + 1) attempt = pageTask codigo soup := by
  rw [coletarFuel, henv]

theorem coletarFuel_http {env : Nat → Nat → FetchResult}
    {codigo maxRetries fuel attempt status : Nat}
    (henv : env codigo attempt = .httpError status) :
    coletarFuel env codigo maxRetries (fuel + 1) attempt =
      ⟨none, .notFound status, [(codigo, .info codigo status)], [], 1⟩ := by
  rw [coletarFuel, henv]

theorem coletarFuel_req_sleeps {env : Nat → Nat → FetchResult}
    {codigo maxRetries fuel attempt : Nat}
    (henv : env codigo attempt = .reqError) :
    (coletarFuel env codigo maxRetries (fuel + 1) attempt).sleeps =
      2 ^ attempt :: (coletarFuel env codigo maxRetries fuel (attempt + 1)).sleeps := by
  rw [coletarFuel, henv]

theorem coletarFuel_req {env : Nat → Nat → FetchResult}
    {codigo maxRetries fuel attempt : Nat}
    (henv : env codigo attempt = .reqError) :
    coletarFuel env codigo maxRetries (fuel + 1) attempt =
      ⟨(coletarFuel env codigo maxRetries fuel (attempt + 1)).result,
       (coletarFuel env codigo maxRetries fuel (attempt + 1)).outcome,
       (codigo, .rede codigo (attempt + 1) maxRetries (2 ^ attempt)) ::
         (coletarFuel env codigo maxRetries fuel (attempt + 1)).logs,
       2 ^ attempt :: (coletarFuel env codigo maxRetries fuel (attempt + 1)).sleeps,
       (coletarFuel env codigo maxRetries fuel (attempt + 1)).attempts + 1⟩ := by
  rw [coletarFuel, henv]

/-! ### Inductive facts about the retry loop -/

theorem coletarFuel_result_codigo (env : Nat → Nat → FetchResult) (codigo maxRetries : Nat) :
    ∀ fuel attempt r, (coletarFuel env codigo maxRetries fuel attempt).result = some r →
      r.codigo = codigo := by
  intro fuel
  induction fuel with
  | zero =>
    intro a r h
    rw [coletarFuel_zero] at h
    exact Option.noConfusion h
  | succ n ih =>
    intro a r h
    cases henv : env codigo a with
    | ok soup =>
      rw [coletarFuel_ok henv] at h
      cases hex : extract codigo soup with
      | none => rw [pageTask_none hex] at h; exact Option.noConfusion h
      | some rr =>
        rw [pageTask_some hex] at h
        have hr : rr = r := Option.some.inj h
        subst hr
        exact extract_codigo codigo soup rr hex
    | httpError s =>
      rw [coletarFuel_http henv] at h
      exact Option.noConfusion h
    | reqError =>
      rw [coletarFuel_req henv] at h
      exact ih (a + 1) r h

theorem coletarFuel_sleeps_getElem (env : Nat → Nat → FetchResult) (codigo maxRetries : Nat) :
    ∀ fuel attempt i v,
      (coletarFuel env codigo maxRetries fuel attempt).sleeps[i]? = some v →
      v = 2 ^ (attempt + i) := by
  intro fuel
  induction fuel with
  | zero =>
    intro a i v h
    rw [coletarFuel_zero] at h
    simp at h
  | succ n ih =>
    intro a i v h
    cases henv : env codigo a with
    | ok soup =>
      rw [coletarFuel_ok henv] at h
      cases hex : extract codigo soup with
      | none => rw [pageTask_none hex] at h; simp at h
      | some rr => rw [pageTask_some hex] at h; simp at h
    | httpError s =>
      rw [coletarFuel_http henv] at h
      simp at h
    | reqError =>
      rw [coletarFuel_req_sleeps henv] at h
      cases i with
      | zero =>
        rw [List.getElem?_cons_zero] at h
        have hv : 2 ^ a = v := Option.some.inj h
        rw [Nat.add_zero]
        exact hv.symm
      | succ j =>
        rw [List.getElem?_cons_succ] at h
        have hval := ih (a + 1) j v h
        rw [hval]
        congr 1
        omega

theorem coletarFuel_networkError_attempts (env : Nat → Nat → FetchResult)
    (codigo maxRetries : Nat) :
    ∀ fuel attempt,
      (coletarFuel env codigo maxRetries fuel attempt).outcome = .networkError →
      (coletarFuel env codigo maxRetries fuel attempt).attempts = fuel := by
  intro fuel
  induction fuel with
  | zero => intro a _; rw [coletarFuel_zero]
  | succ n ih =>
    intro a h
    cases henv : env codigo a with
    | ok soup =>
      rw [coletarFuel_ok henv] at h
      cases hex : extract codigo soup with
      | none => rw [pageTask_none hex] at h; exact Outcome.noConfusion h
      | some rr => rw [pageTask_some hex] at h; exact Outcome.noConfusion h
    | httpError s =>
      rw [coletarFuel_http henv] at h
      exact Outcome.noConfusion h
    | reqError =>
      rw [coletarFuel_req henv] at h
      rw [coletarFuel_req henv]
      show (coletarFuel env codigo maxRetries n (a + 1)).attempts + 1 = n + 1
      rw [ih (a + 1) h]

theorem coletarFuel_networkError_sleeps (env : Nat → Nat → FetchResult)
    (codigo maxRetries : Nat) :
    ∀ fuel attempt,
      (coletarFuel env codigo maxRetries fuel attempt).outcome = .networkError →
      (coletarFuel env codigo maxRetries fuel attempt).sleeps =
        (List.range fuel).map (fun t => 2 ^ (attempt + t)) := by
  intro fuel
  induction fuel with
  | zero => intro a _; rw [coletarFuel_zero]; rfl
  | succ n ih =>
    intro a h
    cases henv : env codigo a with
    | ok soup =>
      rw [coletarFuel_ok henv] at h
      cases hex : extract codigo soup with
      | none => rw [pageTask_none hex] at h; exact Outcome.noConfusion h
      | some rr => rw [pageTask_some hex] at h; exact Outcome.noConfusion h
    | httpError s =>
      rw [coletarFuel_http henv] at h
      exact Outcome.noConfusion h
    | reqError =>
      rw [coletarFuel_req henv] at h
      rw [coletarFuel_req_sleeps henv]
      rw [ih (a + 1) h, List.range_succ_eq_map, List.map_cons, List.map_map]
      rw [Nat.add_zero]
      congr 1
      refine List.map_congr_left ?_
      intro t _
      show 2 ^ (a + 1 + t) = 2 ^ (a + Nat.succ t)
      congr 1
      omega

theorem coletarFuel_notFound (env : Nat → Nat → FetchResult) (codigo maxRetries : Nat) :
    ∀ fuel attempt status,
      (coletarFuel env codigo maxRetries fuel attempt).outcome = .notFound status →
      ∃ k, k < fuel ∧
        (coletarFuel env codigo maxRetries fuel attempt).attempts = k + 1 ∧
        env codigo (attempt + k) = .httpError status ∧
        ∀ j, j < k → env codigo (attempt + j) = .reqError := by
  intro fuel
  induction fuel with
  | zero =>
    intro a s h
    rw [coletarFuel_zero] at h
    exact Outcome.noConfusion h
  | succ n ih =>
    intro a s h
    cases henv : env codigo a with
    | ok soup =>
      rw [coletarFuel_ok henv] at h
      cases hex : extract codigo soup with
      | none => rw [pageTask_none hex] at h; exact Outcome.noConfusion h
      | some rr => rw [pageTask_some hex] at h; exact Outcome.noConfusion h
    | httpError s2 =>
      rw [coletarFuel_http henv] at h
      have hs : s2 = s := Outcome.notFound.inj h
      refine ⟨0, Nat.succ_pos n, ?_, ?_, ?_⟩
      · rw [coletarFuel_http henv]
      · rw [Nat.add_zero, henv, hs]
      · intro j hj
        exact absurd hj (Nat.not_lt_zero j)
    | reqError =>
      rw [coletarFuel_req henv] at h
      obtain ⟨k, hk, hatt, hhttp, hreq⟩ := ih (a + 1) s h
      refine ⟨k + 1, by omega, ?_, ?_, ?_⟩
      · rw [coletarFuel_req henv]
        show (coletarFuel env codigo maxRetries n (a + 1)).attempts + 1 = k + 1 + 1
        rw [hatt]
      · rw [show a + (k + 1) = a + 1 + k from by omega]
        exact hhttp
      · intro j hj
        cases j with
        | zero => rw [Nat.add_zero]; exact henv
        | succ i =>
          rw [show a + (i + 1) = a + 1 + i from by omega]
          exact hreq i (by omega)

theorem coletarFuel_result_isSome (env : Nat → Nat → FetchResult) (codigo maxRetries : Nat) :
    ∀ fuel attempt,
      ((coletarFuel env codigo maxRetries fuel attempt).result.isSome = true ↔
        ∃ k, k < fuel ∧ (∀ j, j < k → env codigo (attempt + j) = .reqError) ∧
          ∃ soup, env codigo (attempt + k) = .ok soup ∧ nome_presente soup = true) := by
  intro fuel
  induction fuel with
  | zero =>
    intro a
    constructor
    · intro h
      rw [coletarFuel_zero] at h
      exact Bool.noConfusion h
    · rintro ⟨k, hk, -⟩
      exact absurd hk (Nat.not_lt_zero k)
  | succ n ih =>
    intro a
    cases henv : env codigo a with
    | ok soup =>
      rw [coletarFuel_ok henv]
      constructor
      · intro h
        refine ⟨0, Nat.succ_pos n, fun j hj => absurd hj (Nat.not_lt_zero j), soup, ?_, ?_⟩
        · rw [Nat.add_zero]; exact henv
        · cases hex : extract codigo soup with
          | none => rw [pageTask_none hex] at h; exact Bool.noConfusion h
          | some rr =>
            have hsome : (extract codigo soup).isSome = true := by rw [hex]; rfl
            rw [extract_isSome] at hsome
            exact hsome
      · rintro ⟨k, hk, hreq, soup2, hok, hnome⟩
        cases k with
        | succ i =>
          have h0 := hreq 0 (Nat.succ_pos i)
          rw [Nat.add_zero, henv] at h0
          exact FetchResult.noConfusion h0
        | zero =>
          rw [Nat.add_zero, henv] at hok
          have hsoup : soup = soup2 := FetchResult.ok.inj hok
          cases hex : extract codigo soup with
          | some rr => rw [pageTask_some hex]; rfl
          | none =>
            have hfalse : nome_presente soup = false := by
              rw [← extract_isSome codigo soup, hex]
              rfl
            rw [← hsoup] at hnome
            rw [hfalse] at hnome
            exact Bool.noConfusion hnome
    | httpError s =>
      rw [coletarFuel_http henv]
      constructor
      · intro h
        exact Bool.noConfusion h
      · rintro ⟨k, hk, hreq, soup2, hok, -⟩
        cases k with
        | zero =>
          rw [Nat.add_zero, henv] at hok
          exact FetchResult.noConfusion hok
        | succ i =>
          have h0 := hreq 0 (Nat.succ_pos i)
          rw [Nat.add_zero, henv] at h0
          exact FetchResult.noConfusion h0
    | reqError =>
      rw [coletarFuel_req henv]
      show ((coletarFuel env codigo maxRetries n (a + 1)).result.isSome = true ↔ _)
      rw [ih (a + 1)]
      constructor
      · rintro ⟨k, hk, hreq, soup, hok, hnome⟩
        refine ⟨k + 1, by omega, ?_, soup, ?_, hnome⟩
        · intro j hj
          cases j with
          | zero => rw [Nat.add_zero]; exact henv
          | succ i =>
            rw [show a + (i + 1) = a + 1 + i from by omega]
            exact hreq i (by omega)
        · rw [show a + (k + 1) = a + 1 + k from by omega]
          exact hok
      · rintro ⟨k, hk, hreq, soup, hok, hnome⟩
        cases k with
        | zero =>
          rw [Nat.add_zero, henv] at hok
          exact FetchResult.noConfusion hok
        | succ i =>
          refine ⟨i, by omega, ?_, soup, ?_, hnome⟩
          · intro j hj
            have hj1 := hreq (j + 1) (by omega)
            rw [show a + (j + 1) = a + 1 + j from by omega] at hj1
            exact hj1
          · have hok1 := hok
            rw [show a + (i + 1) = a + 1 + i from by omega] at hok1
            exact hok1

theorem coletarFuel_empty_of (env : Nat → Nat → FetchResult) (codigo maxRetries : Nat) :
    ∀ fuel attempt k soup, k < fuel →
      (∀ j, j < k → env codigo (attempt + j) = .reqError) →
      env codigo (attempt + k) = .ok soup →
      nome_presente soup = false →
      (coletarFuel env codigo maxRetries fuel attempt).outcome = .empty := by
  intro fuel
  induction fuel with
  | zero =>
    intro a k soup hk _ _ _
    exact absurd hk (Nat.not_lt_zero k)
  | succ n ih =>
    intro a k soup hk hreq hok hnome
    cases k with
    | zero =>
      rw [Nat.add_zero] at hok
      rw [coletarFuel_ok hok]
      have hex : extract codigo soup = none := by
        have h1 := extract_isSome codigo soup
        rw [hnome] at h1
        cases hcase : extract codigo soup with
        | none => rfl
        | some rr => rw [hcase] at h1; exact Bool.noConfusion h1
      rw [pageTask_none hex]
    | succ i =>
      have h0 := hreq 0 (Nat.succ_pos i)
      rw [Nat.add_zero] at h0
      rw [coletarFuel_req h0]
      show (coletarFuel env codigo maxRetries n (a + 1)).outcome = .empty
      refine ih (a + 1) i soup (by omega) ?_ ?_ hnome
      · intro j hj
        have hj1 := hreq (j + 1) (by omega)
        rw [show a + (j + 1) = a + 1 + j from by omega] at hj1
        exact hj1
      · rw [show a + 1 + i = a + (i + 1) from by omega]
        exact hok

theorem coletarFuel_not_malformed (env : Nat → Nat → FetchResult) (codigo maxRetries : Nat) :
    ∀ fuel attempt detail,
      (coletarFuel env codigo maxRetries fuel attempt).outcome ≠ .malformed detail := by
  intro fuel
  induction fuel with
  | zero =>
    intro a d h
    rw [coletarFuel_zero] at h
    exact Outcome.noConfusion h
  | succ n ih =>
    intro a d h
    cases henv : env codigo a with
    | ok soup =>
      rw [coletarFuel_ok henv] at h
      cases hex : extract codigo soup with
      | none => rw [pageTask_none hex] at h; exact Outcome.noConfusion h
      | some rr => rw [pageTask_some hex] at h; exact Outcome.noConfusion h
    | httpError s =>
      rw [coletarFuel_http henv] at h
      exact Outcome.noConfusion h
    | reqError =>
      rw [coletarFuel_req henv] at h
      exact ih (a + 1) d h

theorem coletarFuel_congr (env1 env2 : Nat → Nat → FetchResult) (codigo maxRetries : Nat)
    (hagree : ∀ t, env1 codigo t = env2 codigo t) :
    ∀ fuel attempt,
      coletarFuel env1 codigo maxRetries fuel attempt =
        coletarFuel env2 codigo maxRetries fuel attempt := by
  intro fuel
  induction fuel with
  | zero => intro a; rfl
  | succ n ih =>
    intro a
    cases henv : env2 codigo a with
    | ok soup => rw [coletarFuel_ok henv, coletarFuel_ok ((hagree a).trans henv)]
    | httpError s => rw [coletarFuel_http henv, coletarFuel_http ((hagree a).trans henv)]
    | reqError =>
      rw [coletarFuel_req henv, coletarFuel_req ((hagree a).trans henv)]
      rw [ih (a + 1)]

/-! ### Facts about the stable sort and the assembled lists -/

theorem filter_key_orderedInsert {α : Type} (key : α → Nat) (k : Nat) (x : α) :
    ∀ l : List α,
      (List.orderedInsert (fun a b => key a ≤ key b) x l).filter (fun e => key e = k) =
        if key x = k then x :: l.filter (fun e => key e = k)
        else l.filter (fun e => key e = k) := by
  intro l
  induction l with
  | nil =>
    by_cases hx : key x = k
    · simp [List.orderedInsert, List.filter, hx]
    · simp [List.orderedInsert, List.filter, hx]
  | cons y ys ih =>
    by_cases hle : key x ≤ key y
    · simp only [List.orderedInsert, if_pos hle]
      by_cases hx : key x = k
      · simp [List.filter_cons, hx]
      · simp [List.filter_cons, hx]
    · simp only [List.orderedInsert, if_neg hle]
      rw [List.filter_cons]
      by_cases hy : key y = k
      · by_cases hx : key x = k
        · exact absurd (Nat.le_of_eq (hx.trans hy.symm)) hle
        · simp [List.filter_cons, hy, hx, ih]
      · by_cases hx : key x = k
        · simp [List.filter_cons, hy, hx, ih]
        · simp [List.filter_cons, hy, hx, ih]

theorem filter_key_insertionSort {α : Type} (key : α → Nat) (k : Nat) (l : List α) :
    (l.insertionSort (fun a b => key a ≤ key b)).filter (fun e => key e = k) =
      l.filter (fun e => key e = k) := by
  induction l with
  | nil => rfl
  | cons x xs ih =>
    rw [List.insertionSort, filter_key_orderedInsert, List.filter_cons]
    by_cases hx : key x = k
    · rw [if_pos hx, ih, if_pos (by simp [hx])]
    · rw [if_neg hx, ih, if_neg (by simp [hx])]

theorem sortRecords_perm (l : List Record) : List.Perm (sortRecords l) l :=
  List.perm_insertionSort _ l

theorem sorted_logs_perm (msgs : List (Nat × Msg)) : List.Perm (sorted_logs msgs) msgs :=
  List.perm_insertionSort _ msgs

theorem sortRecords_sorted (l : List Record) :
    (sortRecords l).Pairwise (fun a b => a.codigo ≤ b.codigo) := by
  haveI : IsTotal Record (fun a b => a.codigo ≤ b.codigo) :=
    ⟨fun a b => Nat.le_total a.codigo b.codigo⟩
  haveI : IsTrans Record (fun a b => a.codigo ≤ b.codigo) :=
    ⟨fun a b c hab hbc => Nat.le_trans hab hbc⟩
  exact List.sorted_insertionSort _ l

theorem sorted_logs_sorted (msgs : List (Nat × Msg)) :
    (sorted_logs msgs).Pairwise (fun a b => a.1 ≤ b.1) := by
  haveI : IsTotal (Nat × Msg) (fun a b => a.1 ≤ b.1) :=
    ⟨fun a b => Nat.le_total a.1 b.1⟩
  haveI : IsTrans (Nat × Msg) (fun a b => a.1 ≤ b.1) :=
    ⟨fun a b c hab hbc => Nat.le_trans hab hbc⟩
  exact List.sorted_insertionSort _ msgs

theorem pairwise_mem_split {α : Type} {R : α → α → Prop} :
    ∀ {l : List α} {x y : α}, l.Pairwise R → x ∈ l → y ∈ l → ¬ R y x → x ≠ y →
      ∃ l₁ l₂, l = l₁ ++ x :: l₂ ∧ y ∈ l₂ := by
  intro l
  induction l with
  | nil =>
    intro x y _ hx _ _ _
    exact absurd hx (List.not_mem_nil x)
  | cons z t ih =>
    intro x y hp hx hy hR hne
    rw [List.pairwise_cons] at hp
    by_cases hxz : x = z
    · subst hxz
      have hyt : y ∈ t := by
        rcases List.mem_cons.mp hy with h1 | h1
        · exact absurd h1.symm hne
        · exact h1
      exact ⟨[], t, rfl, hyt⟩
    · have hxt : x ∈ t := by
        rcases List.mem_cons.mp hx with h1 | h1
        · exact absurd h1 hxz
        · exact h1
      have hyt : y ∈ t := by
        rcases List.mem_cons.mp hy with h1 | h1
        · subst h1
          exact absurd (hp.1 x hxt) hR
        · exact h1
      obtain ⟨l₁, l₂, heq, hyl₂⟩ := ih hp.2 hxt hyt hR hne
      exact ⟨z :: l₁, l₂, by rw [heq]; rfl, hyl₂⟩

theorem pairwise_lt_of_le_of_nodup {α : Type} (key : α → Nat) :
    ∀ l : List α, l.Pairwise (fun a b => key a ≤ key b) →
      (l.map key).Nodup → l.Pairwise (fun a b => key a < key b) := by
  intro l
  induction l with
  | nil => intro _ _; exact List.Pairwise.nil
  | cons x xs ih =>
    intro hle hnd
    rw [List.pairwise_cons] at hle ⊢
    rw [List.map_cons, List.nodup_cons] at hnd
    refine ⟨?_, ih hle.2 hnd.2⟩
    intro y hy
    have h1 := hle.1 y hy
    have h2 : key x ≠ key y := by
      intro heq
      refine hnd.1 ?_
      rw [heq]
      exact List.mem_map_of_mem key hy
    omega

theorem map_codigo_filterMap_sublist (env : Nat → Nat → FetchResult) (maxRetries : Nat) :
    ∀ order : List Nat,
      ((order.filterMap (fun c => (coletar_exercicio env maxRetries c).result)).map
        Record.codigo).Sublist order := by
  intro order
  induction order with
  | nil => simp
  | cons c rest ih =>
    cases hres : (coletar_exercicio env maxRetries c).result with
    | none =>
      simp only [List.filterMap_cons, hres]
      exact List.Sublist.cons c ih
    | some r =>
      simp only [List.filterMap_cons, hres, List.map_cons]
      rw [coletarFuel_result_codigo env c maxRetries maxRetries 0 r hres]
      exact List.Sublist.cons₂ c ih

theorem length_filter_range' (c : Nat) :
    ∀ n s, ((List.range' s n).filter (fun x => x = c)).length =
      if s ≤ c ∧ c < s + n then 1 else 0 := by
  intro n
  induction n with
  | zero =>
    intro s
    have hA : ¬(s ≤ c ∧ c < s + 0) := by omega
    rw [if_neg hA]
    rfl
  | succ m ih =>
    intro s
    rw [List.range'_succ, List.filter_cons]
    by_cases hs : s = c
    · have hp : (decide (s = c)) = true := by simp [hs]
      rw [if_pos hp, List.length_cons, ih (s + 1)]
      have hA : ¬(s + 1 ≤ c ∧ c < s + 1 + m) := by omega
      have hB : s ≤ c ∧ c < s + (m + 1) := by omega
      rw [if_neg hA, if_pos hB]
    · have hp : ¬((decide (s = c)) = true) := by simp [hs]
      rw [if_neg hp, ih (s + 1)]
      by_cases hc : s + 1 ≤ c ∧ c < s + 1 + m
      · have hB : s ≤ c ∧ c < s + (m + 1) := by omega
        rw [if_pos hc, if_pos hB]
      · have hB : ¬(s ≤ c ∧ c < s + (m + 1)) := by omega
        rw [if_neg hc, if_neg hB]

theorem resultados_map_codigo_nodup (env : Nat → Nat → FetchResult) (maxRetries : Nat)
    (order : List Nat) (hnd : order.Nodup) :
    ((resultados_finais env maxRetries order).map Record.codigo).Nodup :=
  List.Sublist.nodup (map_codigo_filterMap_sublist env maxRetries order) hnd

theorem exercicios_map_codigo_nodup (env : Nat → Nat → FetchResult) (maxRetries : Nat)
    (order : List Nat) (hnd : order.Nodup) :
    ((exercicios_coletados env maxRetries order).map Record.codigo).Nodup := by
  have hnd1 := resultados_map_codigo_nodup env maxRetries order hnd
  have hperm :=
    (sortRecords_perm (resultados_finais env maxRetries order)).map Record.codigo
  exact hperm.symm.nodup hnd1

theorem exercicios_eq_of_perm (env : Nat → Nat → FetchResult) (maxRetries : Nat)
    (order₁ order₂ : List Nat) (h12 : List.Perm order₁ order₂) (hnd : order₁.Nodup) :
    exercicios_coletados env maxRetries order₁ =
      exercicios_coletados env maxRetries order₂ := by
  haveI : IsAntisymm Record (fun a b => a.codigo < b.codigo) :=
    ⟨fun a b h1 h2 => absurd (Nat.lt_trans h1 h2) (Nat.lt_irrefl a.codigo)⟩
  have hres : List.Perm (resultados_finais env maxRetries order₁)
      (resultados_finais env maxRetries order₂) :=
    h12.filterMap (fun c => (coletar_exercicio env maxRetries c).result)
  have hperm : List.Perm (exercicios_coletados env maxRetries order₁)
      (exercicios_coletados env maxRetries order₂) :=
    ((sortRecords_perm _).trans hres).trans (sortRecords_perm _).symm
  have hnd₂ : order₂.Nodup := h12.nodup hnd
  exact List.eq_of_perm_of_sorted hperm
    (pairwise_lt_of_le_of_nodup Record.codigo _ (sortRecords_sorted _)
      (exercicios_map_codigo_nodup env maxRetries order₁ hnd))
    (pairwise_lt_of_le_of_nodup Record.codigo _ (sortRecords_sorted _)
      (exercicios_map_codigo_nodup env maxRetries order₂ hnd₂))

/-! ### The claims -/

/-- C1: over the inclusive range, the harvest produces exactly one terminal
Outcome per identifier inside the range and none for identifiers outside it
(none duplicated, none dropped); moreover an identifier's whole task behaviour
is a function of the network's responses for that identifier alone, so a
failure while processing one identifier cannot abort the batch or change the
outcome of any other identifier. -/
theorem claim_C1 (env env2 : Nat → Nat → FetchResult)
    (maxRetries codigoInicial codigoFinal c : Nat) :
    (((outcomes env maxRetries codigoInicial codigoFinal).filter
        (fun e => e.1 = c)).length =
      if codigoInicial ≤ c ∧ c ≤ codigoFinal then 1 else 0)
    ∧ ((∀ t, env c t = env2 c t) →
        coletar_exercicio env maxRetries c = coletar_exercicio env2 maxRetries c) := by
  constructor
  · simp only [outcomes, codigos_totais]
    rw [List.filter_map, List.length_map]
    have hfc : List.filter
        ((fun e : Nat × Outcome => decide (e.1 = c)) ∘
          (fun x => (x, (coletar_exercicio env maxRetries x).outcome)))
        (List.range' codigoInicial (codigoFinal + 1 - codigoInicial)) =
        List.filter (fun x => decide (x = c))
        (List.range' codigoInicial (codigoFinal + 1 - codigoInicial)) := by
      refine List.filter_congr ?_
      intro x _
      rfl
    rw [hfc, length_filter_range' c (codigoFinal + 1 - codigoInicial) codigoInicial]
    by_cases hcond : codigoInicial ≤ c ∧ c ≤ codigoFinal
    · have hA : codigoInicial ≤ c ∧
          c < codigoInicial + (codigoFinal + 1 - codigoInicial) := by omega
      rw [if_pos hA, if_pos hcond]
    · have hA : ¬(codigoInicial ≤ c ∧
          c < codigoInicial + (codigoFinal + 1 - codigoInicial)) := by omega
      rw [if_neg hA, if_neg hcond]
  · intro hagree
    exact coletarFuel_congr env env2 c maxRetries hagree maxRetries 0

/-- Witness for C1: in the range 1..3 identifier 2 has exactly one outcome, and
the task for identifier 1 is unchanged when every other identifier's network
behaviour changes. -/
theorem claim_C1_witness :
    (((outcomes envAllFail 2 1 3).filter (fun e => e.1 = 2)).length = 1)
    ∧ coletar_exercicio envAllFail 2 1 = coletar_exercicio envMix 2 1 := by
  constructor
  · exact (claim_C1 envAllFail envMix 2 1 3 2).1
  · exact (claim_C1 envAllFail envMix 2 1 3 1).2 (fun t => rfl)

/-- C2 fails as stated: with maxRetries = 3, a first attempt that times out
followed by a 404 answer terminates in NotFound after 2 fetch attempts, not
exactly 1. -/
theorem claim_C2_counterexample :
    (coletar_exercicio envRetryThen404 3 7).outcome = .notFound 404 ∧
    (coletar_exercicio envRetryThen404 3 7).attempts = 2 ∧ (2 : Nat) ≠ 1 :=
  ⟨by decide, by decide, by decide⟩

/-- C2 (amended): a NetworkError terminal outcome takes exactly maxRetries
fetch attempts; a NotFound terminal outcome is produced by the attempt that
received the HTTP error status, which is the last attempt made (no retry
follows an HTTP error) and is preceded only by transient failures — so the
attempt count is 1 exactly when the first attempt receives the HTTP error. -/
theorem claim_C2 (env : Nat → Nat → FetchResult) (maxRetries codigo : Nat) :
    ((coletar_exercicio env maxRetries codigo).outcome = .networkError →
      (coletar_exercicio env maxRetries codigo).attempts = maxRetries)
    ∧ (∀ status, (coletar_exercicio env maxRetries codigo).outcome = .notFound status →
        ∃ k, k < maxRetries ∧
          (coletar_exercicio env maxRetries codigo).attempts = k + 1 ∧
          env codigo k = .httpError status ∧
          ∀ j, j < k → env codigo j = .reqError)
    ∧ (∀ status, 0 < maxRetries → env codigo 0 = .httpError status →
        (coletar_exercicio env maxRetries codigo).attempts = 1) := by
  refine ⟨?_, ?_, ?_⟩
  · intro h
    exact coletarFuel_networkError_attempts env codigo maxRetries maxRetries 0 h
  · intro s h
    obtain ⟨k, hk, hatt, hhttp, hreq⟩ :=
      coletarFuel_notFound env codigo maxRetries maxRetries 0 s h
    refine ⟨k, hk, hatt, ?_, ?_⟩
    · rw [Nat.zero_add] at hhttp
      exact hhttp
    · intro j hj
      have hj2 := hreq j hj
      rw [Nat.zero_add] at hj2
      exact hj2
  · intro s hm h0
    cases maxRetries with
    | zero => exact absurd hm (Nat.lt_irrefl 0)
    | succ n =>
      show (coletarFuel env codigo (n + 1) (n + 1) 0).attempts = 1
      rw [coletarFuel_http h0]

/-- Witness for C2: all-transient network exhausts both attempts; an immediate
404 takes a single attempt. -/
theorem claim_C2_witness :
    (coletar_exercicio envAllFail 2 7).attempts = 2 ∧
    (coletar_exercicio envHttp404 2 9).attempts = 1 := by
  constructor
  · exact (claim_C2 envAllFail 2 7).1 (by decide)
  · exact (claim_C2 envHttp404 2 9).2.2 404 (by decide) (by decide)

/-- C3 fails as stated: with every attempt timing out (maxRetries = 2), the
delay slept before attempt 1 (the first sleep, performed after attempt 0
fails) lasts 1 time unit, while the claim predicts 2^1 = 2. -/
theorem claim_C3_counterexample :
    (coletar_exercicio envAllFail 2 7).sleeps[0]? = some 1 ∧ (1 : Nat) ≠ 2 ^ 1 :=
  ⟨by decide, by decide⟩

/-- C3 (amended): the i-th backoff sleep (0-indexed) of a task lasts exactly
2^i time units — it is performed after failed attempt i, i.e. before attempt
i+1, so the delay before attempt n (n ≥ 1) is 2^(n-1) — and the delays within
one task strictly increase. -/
theorem claim_C3 (env : Nat → Nat → FetchResult) (maxRetries codigo i v : Nat) :
    ((coletar_exercicio env maxRetries codigo).sleeps[i]? = some v → v = 2 ^ i)
    ∧ (coletar_exercicio env maxRetries codigo).sleeps.Pairwise (fun a b => a < b) := by
  constructor
  · intro h
    have hv := coletarFuel_sleeps_getElem env codigo maxRetries maxRetries 0 i v h
    rw [hv, Nat.zero_add]
  · rw [List.pairwise_iff_getElem]
    intro a b ha hb hab
    have hva := coletarFuel_sleeps_getElem env codigo maxRetries maxRetries 0 a _
      (List.getElem?_eq_getElem ha)
    have hvb := coletarFuel_sleeps_getElem env codigo maxRetries maxRetries 0 b _
      (List.getElem?_eq_getElem hb)
    rw [hva, hvb]
    exact Nat.pow_lt_pow_right (by omega) (by omega)

/-- Witness for C3: the second sleep of an exhausted task lasts 2 = 2^1 time
units, and the sleep sequence is strictly increasing. -/
theorem claim_C3_witness :
    ((2 : Nat) = 2 ^ 1)
    ∧ (coletar_exercicio envAllFail 3 7).sleeps.Pairwise (fun a b => a < b) := by
  constructor
  · exact (claim_C3 envAllFail 3 7 1 2).1 (by decide)
  · exact (claim_C3 envAllFail 3 7 0 0).2

/-- C4 fails as stated: with maxRetries = 1 the only transient failure happens
on the final allowed attempt, yet the task still sleeps 2^0 = 1 before
reaching Done(NetworkError): its sleep list is [1], not empty. -/
theorem claim_C4_counterexample :
    (coletar_exercicio envAllFail 1 7).outcome = .networkError ∧
    (coletar_exercicio envAllFail 1 7).sleeps = [1] ∧
    (coletar_exercicio envAllFail 1 7).sleeps ≠ [] :=
  ⟨by decide, by decide, by decide⟩

/-- C4 (amended): a backoff sleep follows every transient failure, including
the one on the final allowed attempt: a task that terminates in
Done(NetworkError) performs exactly one sleep per attempt, 2^0, ...,
2^(maxRetries-1), the last of them after the final failed attempt and before
the terminal state (the code only then falls out of the loop). -/
theorem claim_C4 (env : Nat → Nat → FetchResult) (maxRetries codigo : Nat)
    (h : (coletar_exercicio env maxRetries codigo).outcome = .networkError) :
    (coletar_exercicio env maxRetries codigo).sleeps =
      (List.range maxRetries).map (fun t => 2 ^ t) := by
  have hs := coletarFuel_networkError_sleeps env codigo maxRetries maxRetries 0 h
  show (coletarFuel env codigo maxRetries maxRetries 0).sleeps = _
  rw [hs]
  refine List.map_congr_left ?_
  intro t _
  rw [Nat.zero_add]

/-- Witness for C4: a task with two exhausted attempts sleeps [1, 2]. -/
theorem claim_C4_witness :
    (coletar_exercicio envAllFail 2 7).sleeps = (List.range 2).map (fun t => 2 ^ t) :=
  claim_C4 envAllFail 2 7 (by decide)

/-- C5: for any completion order of the submitted identifiers, the assembled
success list is strictly ascending by codigo — hence no two records share a
codigo — and its length is at most the length of the identifier range. -/
theorem claim_C5 (env : Nat → Nat → FetchResult)
    (maxRetries codigoInicial codigoFinal : Nat) (order : List Nat)
    (horder : List.Perm order (codigos_totais codigoInicial codigoFinal)) :
    (exercicios_coletados env maxRetries order).Pairwise
        (fun a b => a.codigo < b.codigo)
    ∧ (exercicios_coletados env maxRetries order).length ≤
        (codigos_totais codigoInicial codigoFinal).length := by
  have hndc : (codigos_totais codigoInicial codigoFinal).Nodup :=
    List.nodup_range' codigoInicial (codigoFinal + 1 - codigoInicial)
  have hndorder : order.Nodup := horder.symm.nodup hndc
  constructor
  · exact pairwise_lt_of_le_of_nodup Record.codigo _ (sortRecords_sorted _)
      (exercicios_map_codigo_nodup env maxRetries order hndorder)
  · have h1 := (sortRecords_perm (resultados_finais env maxRetries order)).length_eq
    have h2 : (resultados_finais env maxRetries order).length ≤ order.length :=
      List.length_filterMap_le (fun c => (coletar_exercicio env maxRetries c).result) order
    have h3 := horder.length_eq
    show (sortRecords (resultados_finais env maxRetries order)).length ≤ _
    omega

/-- Witness for C5 with the identity completion order of the range 1..3. -/
theorem claim_C5_witness :
    (exercicios_coletados envCheia 1 (codigos_totais 1 3)).Pairwise
        (fun a b => a.codigo < b.codigo)
    ∧ (exercicios_coletados envCheia 1 (codigos_totais 1 3)).length ≤
        (codigos_totais 1 3).length :=
  claim_C5 envCheia 1 1 3 (codigos_totais 1 3) (List.Perm.refl _)

/-- C6: a record is produced exactly when the eventually successful fetch — the
first attempt that does not raise a RequestException, which must occur within
the attempt budget and load a page — has a primary name field present and
non-blank after stripping; a page that loads without one yields the empty-page
classification, not an error. -/
theorem claim_C6 (env : Nat → Nat → FetchResult) (maxRetries codigo : Nat) :
    ((coletar_exercicio env maxRetries codigo).result.isSome = true ↔
      ∃ k, k < maxRetries ∧ (∀ j, j < k → env codigo j = .reqError) ∧
        ∃ soup, env codigo k = .ok soup ∧ nome_presente soup = true)
    ∧ (∀ k soup, k < maxRetries → (∀ j, j < k → env codigo j = .reqError) →
        env codigo k = .ok soup → nome_presente soup = false →
        (coletar_exercicio env maxRetries codigo).outcome = .empty) := by
  constructor
  · have h := coletarFuel_result_isSome env codigo maxRetries maxRetries 0
    constructor
    · intro hs
      obtain ⟨k, hk, hreq, soup, hok, hnome⟩ := h.mp hs
      refine ⟨k, hk, ?_, soup, ?_, hnome⟩
      · intro j hj
        have hj2 := hreq j hj
        rw [Nat.zero_add] at hj2
        exact hj2
      · rw [Nat.zero_add] at hok
        exact hok
    · rintro ⟨k, hk, hreq, soup, hok, hnome⟩
      refine h.mpr ⟨k, hk, ?_, soup, ?_, hnome⟩
      · intro j hj
        rw [Nat.zero_add]
        exact hreq j hj
      · rw [Nat.zero_add]
        exact hok
  · intro k soup hk hreq hok hnome
    refine coletarFuel_empty_of env codigo maxRetries maxRetries 0 k soup hk ?_ ?_ hnome
    · intro j hj
      rw [Nat.zero_add]
      exact hreq j hj
    · rw [Nat.zero_add]
      exact hok

/-- Witness for C6: a full page yields a record, a blank-name page yields the
empty classification. -/
theorem claim_C6_witness :
    (coletar_exercicio envCheia 1 9).result.isSome = true ∧
    (coletar_exercicio envVazia 1 9).outcome = .empty := by
  constructor
  · exact (claim_C6 envCheia 1 9).1.mpr
      ⟨0, by decide, fun j hj => absurd hj (Nat.not_lt_zero j), soupCheia, rfl, by decide⟩
  · exact (claim_C6 envVazia 1 9).2 0 soupVazia (by decide)
      (fun j hj => absurd hj (Nat.not_lt_zero j)) rfl (by decide)

/-- C7: the assembled outputs are deterministic functions of the per-identifier
responses, independent of completion and interleaving order: any two completion
orders of the same range yield identical sorted record lists (so two runs
against an unchanged network agree), and the sorted log trace is ascending by
identifier with ties kept in emission order (for every identifier, its
subsequence of the sorted trace equals its subsequence of the emitted trace). -/
theorem claim_C7 (env : Nat → Nat → FetchResult)
    (maxRetries codigoInicial codigoFinal : Nat) (order₁ order₂ : List Nat)
    (msgs : List (Nat × Msg))
    (h1 : List.Perm order₁ (codigos_totais codigoInicial codigoFinal))
    (h2 : List.Perm order₂ (codigos_totais codigoInicial codigoFinal)) :
    exercicios_coletados env maxRetries order₁ = exercicios_coletados env maxRetries order₂
    ∧ (sorted_logs msgs).Pairwise (fun a b => a.1 ≤ b.1)
    ∧ ∀ k, (sorted_logs msgs).filter (fun e => e.1 = k) =
        msgs.filter (fun e => e.1 = k) := by
  refine ⟨?_, sorted_logs_sorted msgs, fun k => filter_key_insertionSort Prod.fst k msgs⟩
  have hndc : (codigos_totais codigoInicial codigoFinal).Nodup :=
    List.nodup_range' codigoInicial (codigoFinal + 1 - codigoInicial)
  exact exercicios_eq_of_perm env maxRetries order₁ order₂ (h1.trans h2.symm)
    (h1.symm.nodup hndc)

/-- Witness for C7: two opposite completion orders of the range 1..2 give the
same sorted records, and a concrete log trace sorts stably. -/
theorem claim_C7_witness :
    exercicios_coletados envCheia 1 [2, 1] = exercicios_coletados envCheia 1 [1, 2]
    ∧ (sorted_logs [(5, Msg.concluida), (2, Msg.aviso 2), (5, Msg.aviso 5)]).Pairwise
        (fun a b => a.1 ≤ b.1)
    ∧ (sorted_logs [(5, Msg.concluida), (2, Msg.aviso 2), (5, Msg.aviso 5)]).filter
        (fun e => e.1 = 5) =
      [(5, Msg.concluida), (2, Msg.aviso 2), (5, Msg.aviso 5)].filter
        (fun e => e.1 = 5) := by
  have h := claim_C7 envCheia 1 1 2 [2, 1] [1, 2]
    [(5, Msg.concluida), (2, Msg.aviso 2), (5, Msg.aviso 5)] (by decide) (by decide)
  exact ⟨h.1, h.2.1, h.2.2 5⟩

/-- C8: for an empty range (start > end) the run dispatches no tasks, the final
record list is empty and the summary counters — total attempted, total
succeeded, total failed-or-absent — are all zero. -/
theorem claim_C8 (env : Nat → Nat → FetchResult) (maxRetries : Nat)
    (codigoInicial codigoFinal : Nat) (order : List Nat)
    (hrange : codigoFinal < codigoInicial)
    (horder : List.Perm order (codigos_totais codigoInicial codigoFinal)) :
    codigos_totais codigoInicial codigoFinal = []
    ∧ outcomes env maxRetries codigoInicial codigoFinal = []
    ∧ total_a_coletar codigoInicial codigoFinal = 0
    ∧ exercicios_coletados env maxRetries order = []
    ∧ total_sucesso env maxRetries order = 0
    ∧ total_falha env maxRetries codigoInicial codigoFinal order = 0 := by
  have hn : codigoFinal + 1 - codigoInicial = 0 := by omega
  have hc : codigos_totais codigoInicial codigoFinal = [] := by
    simp only [codigos_totais, hn]
    rfl
  have horder0 : order = [] := List.Perm.eq_nil (hc ▸ horder)
  refine ⟨hc, ?_, ?_, ?_, ?_, ?_⟩
  · simp only [outcomes, hc, List.map_nil]
  · simp only [total_a_coletar, hc, List.length_nil]
  · rw [horder0]
    rfl
  · simp only [total_sucesso]
    rw [horder0]
    rfl
  · simp only [total_falha, total_a_coletar, total_sucesso, hc, horder0]
    rfl

/-- Witness for C8 at the empty range 5..4. -/
theorem claim_C8_witness :
    codigos_totais 5 4 = []
    ∧ outcomes envCheia 1 5 4 = []
    ∧ total_a_coletar 5 4 = 0
    ∧ exercicios_coletados envCheia 1 [] = []
    ∧ total_sucesso envCheia 1 [] = 0
    ∧ total_falha envCheia 1 5 4 [] = 0 :=
  claim_C8 envCheia 1 5 4 [] (by decide) (by decide)

/-- C9 fails as stated for the boundary identifier 99999: the range 1..99999
contains an identifier greater than or equal to 99999, yet in the sorted trace
the entry logged by identifier 99999 keeps its emission position before the
finished banner (the sort is stable and the banner is emitted only after all
tasks complete), so the finished banner is still the last entry, not before or
interleaved-then-followed by later entries. -/
theorem claim_C9_counterexample :
    (99999 : Nat) ∈ codigos_totais 1 99999
    ∧ sorted_logs (status_messages 1 99999 [(99999, Msg.aviso 99999)]) =
        [(0, Msg.iniciando (total_a_coletar 1 99999) 1 99999),
         (99999, Msg.aviso 99999), (99999, Msg.concluida)]
    ∧ (sorted_logs (status_messages 1 99999 [(99999, Msg.aviso 99999)])).getLast? =
        some (99999, Msg.concluida) := by
  refine ⟨?_, rfl, rfl⟩
  simp only [codigos_totais]
  rw [List.mem_range'_1]
  omega

/-- C9 (amended): the run-start banner is logged under sentinel identifier 0
and the run-finished banner under sentinel identifier 99999; since real
identifiers are at least 1, the start banner sorts first.  Any log entry of an
identifier strictly greater than 99999 sorts strictly after the finished
banner, so in such ranges the finished banner is not the last entry of the
trace; entries of identifier exactly 99999, however, keep their emission
position before the banner (the sort is stable and the banner is emitted
last), so a range whose largest identifier is 99999 still ends with the
finished banner. -/
theorem claim_C9 (codigoInicial codigoFinal : Nat) (inter : List (Nat × Msg))
    (hini : 1 ≤ codigoInicial)
    (hinter : ∀ e ∈ inter, e.1 ∈ codigos_totais codigoInicial codigoFinal) :
    (sorted_logs (status_messages codigoInicial codigoFinal inter)).head? =
      some (0, Msg.iniciando (total_a_coletar codigoInicial codigoFinal)
        codigoInicial codigoFinal)
    ∧ (∀ c msg, (c, msg) ∈ inter → 99999 < c →
        ∃ l₁ l₂,
          sorted_logs (status_messages codigoInicial codigoFinal inter) =
            l₁ ++ (99999, Msg.concluida) :: l₂ ∧ (c, msg) ∈ l₂)
    ∧ (sorted_logs (status_messages codigoInicial codigoFinal inter)).filter
        (fun e => e.1 = 99999) =
      inter.filter (fun e => e.1 = 99999) ++ [(99999, Msg.concluida)] := by
  have hperm := sorted_logs_perm (status_messages codigoInicial codigoFinal inter)
  have hsorted := sorted_logs_sorted (status_messages codigoInicial codigoFinal inter)
  have hkey : ∀ e ∈ status_messages codigoInicial codigoFinal inter,
      e ≠ (0, Msg.iniciando (total_a_coletar codigoInicial codigoFinal)
        codigoInicial codigoFinal) → 1 ≤ e.1 := by
    intro e he hne
    simp only [status_messages] at he
    rcases List.mem_cons.mp he with h1 | h1
    · exact absurd h1 hne
    · rcases List.mem_append.mp h1 with h2 | h2
      · have hmem := hinter e h2
        simp only [codigos_totais] at hmem
        rw [List.mem_range'_1] at hmem
        omega
      · rw [List.mem_singleton] at h2
        rw [h2]
        omega
  have hbmem : (0, Msg.iniciando (total_a_coletar codigoInicial codigoFinal)
      codigoInicial codigoFinal) ∈ status_messages codigoInicial codigoFinal inter := by
    simp only [status_messages]
    exact List.mem_cons_self _ _
  refine ⟨?_, ?_, ?_⟩
  · cases hS : sorted_logs (status_messages codigoInicial codigoFinal inter) with
    | nil =>
      exfalso
      have hbS := hperm.mem_iff.mpr hbmem
      rw [hS] at hbS
      exact absurd hbS (List.not_mem_nil _)
    | cons x xs =>
      have hxS : x ∈ sorted_logs (status_messages codigoInicial codigoFinal inter) := by
        rw [hS]
        exact List.mem_cons_self x xs
      have hxL := hperm.subset hxS
      by_cases hxb : x = (0, Msg.iniciando (total_a_coletar codigoInicial codigoFinal)
          codigoInicial codigoFinal)
      · rw [hxb]
        rfl
      · exfalso
        have h1x := hkey x hxL hxb
        have hbS := hperm.mem_iff.mpr hbmem
        rw [hS] at hbS
        rcases List.mem_cons.mp hbS with hbx | hbxs
        · exact hxb hbx.symm
        · rw [hS, List.pairwise_cons] at hsorted
          have hle := hsorted.1 _ hbxs
          have hle0 : x.1 ≤ 0 := hle
          omega
  · intro c msg hmem hc
    have hinS : (c, msg) ∈
        sorted_logs (status_messages codigoInicial codigoFinal inter) := by
      refine hperm.mem_iff.mpr ?_
      simp only [status_messages]
      exact List.mem_cons.mpr (Or.inr (List.mem_append.mpr (Or.inl hmem)))
    have hbS : ((99999 : Nat), Msg.concluida) ∈
        sorted_logs (status_messages codigoInicial codigoFinal inter) := by
      refine hperm.mem_iff.mpr ?_
      simp only [status_messages]
      exact List.mem_cons.mpr
        (Or.inr (List.mem_append.mpr (Or.inr (List.mem_singleton.mpr rfl))))
    refine pairwise_mem_split hsorted hbS hinS ?_ ?_
    · intro hle
      have hle2 : c ≤ 99999 := hle
      omega
    · intro heq
      have h9 : (99999 : Nat) = c := congrArg Prod.fst heq
      omega
  · have h1 : (sorted_logs (status_messages codigoInicial codigoFinal inter)).filter
        (fun e => e.1 = 99999) =
        (status_messages codigoInicial codigoFinal inter).filter
          (fun e => e.1 = 99999) :=
      filter_key_insertionSort Prod.fst 99999 _
    have h2 : (status_messages codigoInicial codigoFinal inter).filter
        (fun e => e.1 = 99999) =
        (inter ++ [((99999 : Nat), Msg.concluida)]).filter (fun e => e.1 = 99999) := rfl
    have h4 : ([((99999 : Nat), Msg.concluida)]).filter (fun e => e.1 = 99999) =
        [((99999 : Nat), Msg.concluida)] := rfl
    rw [h1, h2, List.filter_append, h4]

/-- Witness for C9: range 1..100000 with one log entry for identifier 100000:
the start banner sorts first, the finished banner sorts before that entry, and
the 99999-keyed portion of the trace is exactly the finished banner. -/
theorem claim_C9_witness :
    (sorted_logs (status_messages 1 100000 [(100000, Msg.aviso 100000)])).head? =
      some (0, Msg.iniciando (total_a_coletar 1 100000) 1 100000)
    ∧ (∃ l₁ l₂,
        sorted_logs (status_messages 1 100000 [(100000, Msg.aviso 100000)]) =
          l₁ ++ (99999, Msg.concluida) :: l₂ ∧ (100000, Msg.aviso 100000) ∈ l₂)
    ∧ (sorted_logs (status_messages 1 100000 [(100000, Msg.aviso 100000)])).filter
        (fun e => e.1 = 99999) =
      [((100000 : Nat), Msg.aviso 100000)].filter (fun e => e.1 = 99999) ++
        [(99999, Msg.concluida)] := by
  have hinter : ∀ e ∈ [((100000 : Nat), Msg.aviso 100000)],
      e.1 ∈ codigos_totais 1 100000 := by
    intro e he
    rw [List.mem_singleton] at he
    rw [he]
    show (100000 : Nat) ∈ codigos_totais 1 100000
    simp only [codigos_totais]
    rw [List.mem_range'_1]
    omega
  have h := claim_C9 1 100000 [(100000, Msg.aviso 100000)] (by omega) hinter
  exact ⟨h.1, h.2.1 100000 (Msg.aviso 100000) (List.mem_singleton.mpr rfl) (by omega),
    h.2.2⟩

/-- C10: field extraction is total over any successfully fetched page — it
yields either a record or the empty-page signal, exactly according to the
primary field — every secondary field and the image URL default to the empty
string when their element or source attribute is absent, and the Malformed
outcome variant is never produced by any task. -/
theorem claim_C10 (env : Nat → Nat → FetchResult) (maxRetries codigo : Nat)
    (detail : String) (soup : Html) (r : Record) :
    ((coletar_exercicio env maxRetries codigo).outcome ≠ .malformed detail)
    ∧ ((extract codigo soup).isSome = nome_presente soup)
    ∧ (extract codigo soup = some r →
        (soup.lblDescricao = none → r.descricao = "")
        ∧ (soup.lblGrupoM = none → r.grupoMuscular = "")
        ∧ (soup.lblInstrucao = none → r.instrucao = "")
        ∧ (soup.gifDiv = none → r.gif_url = "")
        ∧ (∀ d, soup.gifDiv = some d → d.img = none → r.gif_url = "")
        ∧ (∀ d tag, soup.gifDiv = some d → d.img = some tag → tag.src = none →
            r.gif_url = "")) := by
  refine ⟨coletarFuel_not_malformed env codigo maxRetries maxRetries 0 detail,
    extract_isSome codigo soup, ?_⟩
  intro hex
  unfold extract at hex
  cases hn : soup.lblNome1 with
  | none =>
    rw [hn] at hex
    exact Option.noConfusion hex
  | some raw =>
    rw [hn] at hex
    simp only at hex
    by_cases ht : strip raw = ""
    · rw [if_pos ht] at hex
      exact Option.noConfusion hex
    · rw [if_neg ht] at hex
      have hr := Option.some.inj hex
      subst hr
      refine ⟨?_, ?_, ?_, ?_, ?_, ?_⟩
      · intro h0
        show (match soup.lblDescricao with | some t => strip t | none => "") = ""
        rw [h0]
      · intro h0
        show (match soup.lblGrupoM with | some t => strip t | none => "") = ""
        rw [h0]
      · intro h0
        show (match soup.lblInstrucao with | some t => strip t | none => "") = ""
        rw [h0]
      · intro h0
        show gif_url_of soup = ""
        unfold gif_url_of
        rw [h0]
      · intro d hdiv himg
        show gif_url_of soup = ""
        unfold gif_url_of
        rw [hdiv]
        show (match d.img with
              | none => ""
              | some tag => match tag.src with | some s => s | none => "") = ""
        rw [himg]
      · intro d tag hdiv himg hsrc
        show gif_url_of soup = ""
        unfold gif_url_of
        rw [hdiv]
        show (match d.img with
              | none => ""
              | some tg => match tg.src with | some s => s | none => "") = ""
        rw [himg]
        show (match tag.src with | some s => s | none => "") = ""
        rw [hsrc]

/-- Witness for C10: a page carrying only the primary name yields a record
whose secondary fields and image URL are all empty, and no outcome is ever
Malformed. -/
theorem claim_C10_witness :
    ((coletar_exercicio envCheia 1 5).outcome ≠ .malformed "erro")
    ∧ recSoNome.descricao = "" ∧ recSoNome.grupoMuscular = ""
    ∧ recSoNome.instrucao = "" ∧ recSoNome.gif_url = "" := by
  have h := claim_C10 envCheia 1 5 "erro" soupSoNome recSoNome
  have h3 := h.2.2 (by decide)
  exact ⟨h.1, h3.1 rfl, h3.2.1 rfl, h3.2.2.1 rfl, h3.2.2.2.1 rfl⟩

end AcademiaSalva
